import Mathlib

/-!
Verification of the streaming ingestion pipeline (SSE listener Durable
Object, stateless Worker and telemetry logger) of the printer_faker
repository.  Receipt texts are modelled as `List Char`; JavaScript string
operations (`split('\n')`, `trim()`, `includes`, the regular-expression
matches used by the dish parser) are embedded as executable functions on
character lists, and the connection-supervisor loop as an explicit state
machine.
-/

/-- Whitespace characters recognised by JavaScript `trim`, `\s` — the
ASCII subset, which covers every character occurring in the receipts. -/
def isJsWs (c : Char) : Bool :=
  c = ' ' || c = '\t' || c = '\n' || c = '\r' || c = '\x0b' || c = '\x0c'

/-- JavaScript `String.prototype.trim`: strip leading and trailing
whitespace. -/
def jsTrim (l : List Char) : List Char :=
  ((l.dropWhile isJsWs).reverse.dropWhile isJsWs).reverse

/-- Is the first list a prefix of the second (decidable, executable)? -/
def isPre : List Char → List Char → Bool
  | [], _ => true
  | _ :: _, [] => false
  | a :: as, b :: bs => a = b && isPre as bs

/-- JavaScript `String.prototype.includes`: substring containment. -/
def containsSub (n : List Char) : List Char → Bool
  | [] => isPre n []
  | c :: t => isPre n (c :: t) || containsSub n t

/-- `s.split('\n')` followed by `pop()`: the complete (newline terminated)
lines in order, and the trailing remainder after the last newline. -/
def splitLines : List Char → List (List Char) × List Char
  | [] => ([], [])
  | c :: cs =>
    let p := splitLines cs
    if c = '\n' then ([] :: p.1, p.2)
    else
      match p.1 with
      | [] => ([], c :: p.2)
      | l :: ls => ((c :: l) :: ls, p.2)

/-- `s.split('\n')` with every part, as JavaScript returns it: the
complete lines followed by the final (possibly empty) part. -/
def jsSplitNL (s : List Char) : List (List Char) :=
  (splitLines s).1 ++ [(splitLines s).2]

example : jsTrim "  ab ".data = "ab".data := by decide
example : containsSub "加菜".data "(加菜)制作分单".data = true := by decide
example : containsSub "客单".data "(加菜)制作分单".data = false := by decide
example : jsSplitNL "a\nbc\n".data = ["a".data, "bc".data, []] := by decide
example : splitLines "a\nbc".data = (["a".data], "bc".data) := by decide

/-! ## Dish extraction (`parseDishesFromText` of the Worker and of the
SSE listener Durable Object — the two sources are textually identical) -/

/-- One extracted dish record `{name, quantity}`. -/
structure Dish where
  name : List Char
  quantity : Nat
deriving DecidableEq

/-- The unit glyph class `[份瓶听盒位杯碗个张]` of the customer-order
dish patterns. -/
def unitChars : List Char := "份瓶听盒位杯碗个张".data

/-- Numeric value of an ASCII digit character (`parseInt` on one digit). -/
def charDigitVal (c : Char) : Nat := c.toNat - 48

/-- Attempt to match `(\d+)(\d)([份瓶听盒位杯碗个张])(\d+)$` at the given
suffix of the line (the part after the lazily matched name).  The greedy
`(\d+)(\d)` must consume the whole maximal digit run (a digit cannot
follow the single `(\d)` capture), so a match requires the maximal run to
have length at least two and to be followed immediately by a unit glyph
and then a nonempty all-digit tail.  Returns the quantity digit
(`match[3]`, the last digit of the run). -/
def strictTail (rest : List Char) : Option Nat :=
  let run := rest.takeWhile Char.isDigit
  if 2 ≤ run.length then
    match rest.drop run.length with
    | u :: after =>
      if unitChars.contains u && !after.isEmpty && after.all Char.isDigit then
        some (charDigitVal (run.getLastD '0'))
      else none
    | [] => none
  else none

/-- The lazy scan of `^(.+?)…$`: try name prefixes of increasing length
(at least one character, `pre` is the candidate so far) and return the
first one whose remainder matches `strictTail`, together with the
quantity. -/
def strictGo (pre : List Char) : List Char → Option (List Char × Nat)
  | [] => none
  | c :: t =>
    match strictTail (c :: t) with
    | some q => some (pre, q)
    | none => strictGo (pre ++ [c]) t

/-- Full-line match of the strict pattern
`^(.+?)(\d+)(\d)([份瓶听盒位杯碗个张])(\d+)$`: captured name (untrimmed)
and quantity digit. -/
def strictParse : List Char → Option (List Char × Nat)
  | [] => none
  | c :: t => strictGo [c] t

/-- Match of `(?:\d+[份瓶听盒位杯碗个张]\d+|\d+)$` at the suffix after the
name: either a digit run, a unit glyph and a nonempty digit tail, or a
pure nonempty digit run to the end. -/
def fallbackTail (rest : List Char) : Bool :=
  (let run := rest.takeWhile Char.isDigit
   decide (1 ≤ run.length) &&
     (match rest.drop run.length with
      | u :: after => unitChars.contains u && !after.isEmpty && after.all Char.isDigit
      | [] => false))
  || (!rest.isEmpty && rest.all Char.isDigit)

/-- Lazy scan of the fallback pattern
`^(.+?)(?:\d+[份瓶听盒位杯碗个张]\d+|\d+)$`; returns the captured
(untrimmed) name of the first matching split. -/
def fallbackGo (pre : List Char) : List Char → Option (List Char)
  | [] => none
  | c :: t =>
    if fallbackTail (c :: t) then some pre
    else fallbackGo (pre ++ [c]) t

/-- Full-line match of the fallback pattern. -/
def fallbackParse : List Char → Option (List Char)
  | [] => none
  | c :: t => fallbackGo [c] t

/-- Does the name begin with a digit (`name.match(/^\d/)`)? -/
def headIsDigit (l : List Char) : Bool :=
  match l with
  | [] => false
  | c :: _ => c.isDigit

/-- Processing of one line of the dish section: trim, skip empty lines
and modifier lines starting with `-`; try the strict pattern (push the
dish when the trimmed name is nonempty and the quantity is positive);
otherwise try the fallback pattern (push with quantity 1 when the trimmed
name is nonempty and does not begin with a digit). -/
def parseLine (line : List Char) : List Dish :=
  let trimmed := jsTrim line
  if trimmed.isEmpty then []
  else if trimmed.head? = some '-' then []
  else
    match strictParse trimmed with
    | some (rawName, q) =>
      let name := jsTrim rawName
      if !name.isEmpty && 0 < q then [⟨name, q⟩] else []
    | none =>
      match fallbackParse trimmed with
      | some rawName =>
        let name := jsTrim rawName
        if !name.isEmpty && !headIsDigit name then [⟨name, 1⟩] else []
      | none => []

/-- The header of the dish-section pattern
`菜品[单价]*数量[小计]*\n`, matched at the start of the given text.  The
greedy classes cannot steal the following required characters (`数` and
`\n` are outside them), so the match is the forced one.  Returns the text
after the newline. -/
def matchHeaderAt (l : List Char) : Option (List Char) :=
  if isPre "菜品".data l then
    let l2 := (l.drop 2).dropWhile (fun c => c = '单' || c = '价')
    if isPre "数量".data l2 then
      let l3 := (l2.drop 2).dropWhile (fun c => c = '小' || c = '计')
      match l3 with
      | '\n' :: rest => some rest
      | _ => none
    else none
  else none

/-- The lazy capture `([\s\S]*?)` up to the first occurrence of the
footer `菜品价格合计`; `none` when the footer does not occur. -/
def findFooter : List Char → Option (List Char)
  | [] => none
  | c :: t =>
    if isPre "菜品价格合计".data (c :: t) then some []
    else (findFooter t).map (c :: ·)

/-- Leftmost match of
`/菜品[单价]*数量[小计]*\n([\s\S]*?)菜品价格合计/` over the whole text:
scan start positions left to right; at each, match the header and then
capture up to the first footer occurrence. -/
def findDishSection : List Char → Option (List Char)
  | [] => none
  | c :: t =>
    match matchHeaderAt (c :: t) with
    | some rest =>
      match findFooter rest with
      | some cap => some cap
      | none => findDishSection t
    | none => findDishSection t

namespace SSEListener

/-- `SSEListener.parseDishesFromText` (Durable Object method): locate the
dish section, split it on newlines and process each line. -/
def parseDishesFromText (text : List Char) : List Dish :=
  if text.isEmpty then []
  else
    match findDishSection text with
    | none => []
    | some sec => (jsSplitNL sec).flatMap parseLine

end SSEListener

namespace Worker

/-- `parseDishesFromText` (module-level helper of the stateless Worker):
locate the dish section, split it on newlines and process each line. -/
def parseDishesFromText (text : List Char) : List Dish :=
  if text.isEmpty then []
  else
    match findDishSection text with
    | none => []
    | some sec => (jsSplitNL sec).flatMap parseLine

end Worker

example :
    SSEListener.parseDishesFromText
      "菜品单价数量小计\n野菜卷181份18\n木姜子牛肉522份104\n菜品价格合计122".data =
      [⟨"野菜卷".data, 1⟩, ⟨"木姜子牛肉".data, 2⟩] := by decide

example :
    SSEListener.parseDishesFromText
      "桌号: 8\n客单\n野菜卷181份18\n木姜子牛肉522份104\n合计: 122\n单号: C001".data = [] := by
  decide

example :
    SSEListener.parseDishesFromText "菜品单价数量小计\n1234份5\n菜品价格合计".data =
      [⟨"1".data, 4⟩] := by decide

/-! ## Receipt routing -/

/-- The `orderType` label computed by `SSEListener.processOrder`. -/
inductive OrderLabel where
  | kitchenSlip
  | customerOrder
  | checkout
  | unknownLabel
deriving DecidableEq

/-- Leftmost match of `/桌号:\s*([^\n]+)/` step two: match
`\s*([^\n]+)` at the text following `桌号:`.  `\s*` is greedy (and `\s`
includes the newline), backtracking until `[^\n]+` can take at least one
character; `j` counts the whitespace characters still consumed. -/
def tryCapture (rest : List Char) : Nat → Option (List Char)
  | 0 =>
    let cap := rest.takeWhile (fun c => c ≠ '\n')
    if cap.isEmpty then none else some cap
  | j + 1 =>
    let cap := (rest.drop (j + 1)).takeWhile (fun c => c ≠ '\n')
    if cap.isEmpty then tryCapture rest j else some cap

/-- Leftmost match of `/桌号:\s*([^\n]+)/`: scan start positions left to
right; where the literal `桌号:` matches, run the whitespace/capture
part, falling through to later positions on failure.  Returns the raw
capture. -/
def findTableCapture : List Char → Option (List Char)
  | [] => none
  | c :: t =>
    if isPre "桌号:".data (c :: t) then
      let rest := (c :: t).drop 3
      match tryCapture rest (rest.takeWhile isJsWs).length with
      | some cap => some cap
      | none => findTableCapture t
    else findTableCapture t

/-- Table-number extraction of `SSEListener.processOrder`: the trimmed
capture of `/桌号:\s*([^\n]+)/`, defaulting to `"unknown"`. -/
def extractTableNo (pt : List Char) : List Char :=
  match findTableCapture pt with
  | some cap => jsTrim cap
  | none => "unknown".data

/-- The externally visible effects of one `SSEListener.processOrder`
call, as decided by its marker tests on `plain_text`. -/
structure DORouteResult where
  skippedCheckout : Bool
  orderLabel : OrderLabel
  orderInserted : Bool
  kitchenProcessed : Bool
  tableNo : List Char
deriving DecidableEq

/-- Routing logic of `SSEListener.processOrder` (Durable Object): skip
`结账单` receipts; otherwise compute `isKitchenSlip` (body contains
`制作分单`) and `isCustomerOrder` (body contains `客单` or `加菜`) as two
independent flags, label the order with kitchen-slip precedence, and run
the customer-order insert block whenever `isCustomerOrder` holds and the
kitchen-slip block whenever `isKitchenSlip` holds — the two `if` blocks
are not exclusive. -/
def processOrderRoute (pt : List Char) : DORouteResult :=
  if containsSub "结账单".data pt then
    { skippedCheckout := true, orderLabel := .unknownLabel, orderInserted := false,
      kitchenProcessed := false, tableNo := "unknown".data }
  else
    let isKitchenSlip := containsSub "制作分单".data pt
    let isCustomerOrder := containsSub "客单".data pt || containsSub "加菜".data pt
    let label :=
      if isKitchenSlip then OrderLabel.kitchenSlip
      else if isCustomerOrder then OrderLabel.customerOrder
      else if containsSub "结账".data pt then OrderLabel.checkout
      else OrderLabel.unknownLabel
    { skippedCheckout := false, orderLabel := label, orderInserted := isCustomerOrder,
      kitchenProcessed := isKitchenSlip, tableNo := extractTableNo pt }

/-- The branch taken by the Worker's `processOrderToSupabase`. -/
inductive WorkerBranch where
  | preCheckout
  | checkout
  | kitchenSlip
  | customerOrder
  | unknownOrderType
deriving DecidableEq

/-- Routing logic of the Worker's `processOrderToSupabase`, over the
`type` field (`orderData.type || ''`) and `plain_text`: pre-checkout and
checkout bodies are skipped first, the kitchen-slip test runs before the
customer-order test, and the two are joined by `else if`, so at most one
branch runs.  An order row is inserted exactly in the customer-order
branch. -/
def processOrderToSupabaseRoute (ty pt : List Char) : WorkerBranch :=
  if containsSub "预结单".data pt then .preCheckout
  else if containsSub "结账单".data pt then .checkout
  else if ty = "kitchenSlip".data ||
      (containsSub "制作分单".data pt || containsSub "(加菜)制作分单".data pt) then
    .kitchenSlip
  else if ty = "order".data || ty = "customerOrder".data || ty = [] ||
      containsSub "客单".data pt then
    .customerOrder
  else .unknownOrderType

/-! ## Durable storage and the event counter keys -/

/-- The Durable Object storage: an association list from key to numeric
value, newest entry first. -/
def Storage := List (List Char × Nat)

/-- `state.storage.put(key, value)`. -/
def storagePut (k : List Char) (v : Nat) (s : Storage) : Storage := (k, v) :: s

/-- `await state.storage.get(key) as number || 0`. -/
def storageGetNat (k : List Char) (s : Storage) : Nat :=
  match List.find? (fun p => decide (p.1 = k)) s with
  | some p => p.2
  | none => 0

/-- The in-memory event counter together with the durable storage. -/
structure ListenerCounters where
  totalOrdersReceived : Nat
  storage : Storage

/-- The per-event counter mutation of `processSSEStream`:
`this.totalOrdersReceived++` followed by
`await this.state.storage.put('totalReceived', this.totalOrdersReceived)`. -/
def eventCountStep (st : ListenerCounters) : ListenerCounters :=
  let t := st.totalOrdersReceived + 1
  { totalOrdersReceived := t, storage := storagePut "totalReceived".data t st.storage }

/-- The constructor restore of the event counter:
`this.totalOrdersReceived = stored.get('totalOrdersReceived') as number || 0`. -/
def restoreTotal (s : Storage) : Nat := storageGetNat "totalOrdersReceived".data s

/-! ## Connection supervisor -/

/-- Supervisor state: in-memory `activeConnection` and
`reconnectAttempts` with their durably stored copies. -/
structure ConnSt where
  activeConnection : Bool
  reconnectAttempts : Nat
  storedActive : Bool
  storedAttempts : Nat
deriving DecidableEq

/-- The catch block of one failed iteration of
`maintainSSEConnection`: increment `reconnectAttempts` and persist it; on
reaching `maxReconnectAttempts` (10), clear `activeConnection` and
persist `false`. -/
def failStep (st : ConnSt) : ConnSt :=
  let a := st.reconnectAttempts + 1
  if 10 ≤ a then
    { activeConnection := false, reconnectAttempts := a,
      storedActive := false, storedAttempts := a }
  else
    { st with reconnectAttempts := a, storedAttempts := a }

/-- The `maintainSSEConnection` loop under the scenario in which every
connection attempt fails (`fetch` throws each time), with `fuel` bounding
the number of loop iterations examined.  The loop guard is
`activeConnection && reconnectAttempts < maxReconnectAttempts`; each
guarded iteration performs one connection attempt (counted in the second
component) and then runs `failStep`. -/
def maintainFail : Nat → ConnSt → ConnSt × Nat
  | 0, st => (st, 0)
  | n + 1, st =>
    if st.activeConnection && st.reconnectAttempts < 10 then
      let r := maintainFail n (failStep st)
      (r.1, r.2 + 1)
    else (st, 0)

/-- `startSSEConnection` as reached from an explicit `start()` on a fresh
instance: `activeConnection := true` persisted before connecting,
attempts still at zero. -/
def startState : ConnSt :=
  { activeConnection := true, reconnectAttempts := 0,
    storedActive := true, storedAttempts := 0 }

/-- The successful-connection reset inside the loop:
`reconnectAttempts = 0` persisted (the failure path is `failStep`). -/
def connectStep (st : ConnSt) (ok : Bool) : ConnSt :=
  if ok then { st with reconnectAttempts := 0, storedAttempts := 0 }
  else failStep st

/-- The reconnect delay computed after the attempt counter was
incremented to `attempts`:
`Math.min(this.reconnectDelay * Math.pow(1.5, attempts - 1), 60000)` with
`reconnectDelay = 5000`.  All values arising for `attempts ≤ 10` are
exactly representable in binary64, so the rational model is exact. -/
def backoffDelay (attempts : Nat) : ℚ :=
  min (5000 * (3 / 2 : ℚ) ^ (attempts - 1)) 60000

/-- The delay the loop would wait before the next attempt if the next
connection attempt failed from state `st`. -/
def delayAfterFailure (st : ConnSt) : ℚ :=
  backoffDelay (st.reconnectAttempts + 1)

/-! ## Event framer -/

/-- `processSSEStream`'s framing loop: per chunk, append to the carry
buffer, split on newlines keeping the trailing incomplete line in the
buffer, and emit each complete line trimmed, skipping lines that trim to
empty.  Returns the emitted records and the final buffer. -/
def framerRun (buf : List Char) : List (List Char) → List (List Char) × List Char
  | [] => ([], buf)
  | ch :: chs =>
    let p := splitLines (buf ++ ch)
    let r := framerRun p.2 chs
    (((p.1.map jsTrim).filter (fun l => !l.isEmpty)) ++ r.1, r.2)

/-! ## Telemetry buffer -/

/-- The flush trigger of `processSSEStream`:
`this.logger.getBufferSize() > 5 || timeSinceLastFlush > 30000`. -/
def flushCondition (bufferSize timeSinceLastFlush : Nat) : Bool :=
  decide (5 < bufferSize) || decide (30000 < timeSinceLastFlush)

/-- `AxiomLogger.flush`: a disabled logger or an empty buffer returns
with the buffer untouched; a successful ingest clears the buffer; a
failed ingest keeps every buffered record for the next attempt. -/
def flushBuffer (enabled : Bool) (buffer : List Nat) (ingestOk : Bool) : List Nat :=
  if !enabled || buffer.isEmpty then buffer
  else if ingestOk then [] else buffer

/-! ## Concrete receipt bodies used in the claims -/

/-- An add-dish kitchen slip: its body contains the kitchen-slip marker
`制作分单` (via `(加菜)制作分单`) and therefore also the customer-order
marker `加菜`. -/
def addDishSlipBody : List Char :=
  "桌号: 5\n(加菜)制作分单\n档口: 荤菜\n菜品数量\n木姜子牛肉2/份\n单号: X1".data

/-- The customer-order scenario body of the specification (§8). -/
def scenarioBody : List Char :=
  "桌号: 8\n客单\n野菜卷181份18\n木姜子牛肉522份104\n合计: 122\n单号: C001".data

/-- A well-formed dish section whose two lines match the strict pattern. -/
def demoSectionBody : List Char :=
  "菜品单价数量小计\n野菜卷181份18\n木姜子牛肉522份104\n菜品价格合计122".data

/-- A dish section whose single line `1234份5` matches the strict
pattern with the one-character name `1`. -/
def digitNameBody : List Char :=
  "菜品单价数量小计\n1234份5\n菜品价格合计".data

/-- A dish section with eleven strict-pattern dish lines. -/
def elevenDishBody : List Char :=
  ("菜品单价数量小计\n鱼11份1\n鱼11份1\n鱼11份1\n鱼11份1\n鱼11份1\n鱼11份1\n" ++
    "鱼11份1\n鱼11份1\n鱼11份1\n鱼11份1\n鱼11份1\n菜品价格合计").data

/-! ## Claims -/

/-- C1: the Durable Object's `processOrder` labels a body containing
`(加菜)制作分单` as a kitchen slip and runs the kitchen-slip block, yet
it also runs the customer-order insert block (its `isCustomerOrder` flag
is tested independently rather than after the kitchen-slip test), so an
Order row is created for this kitchen-slip receipt — the Worker's
`processOrderToSupabase`, which checks the kitchen-slip marker first with
`else if`, routes the same body to the kitchen-slip branch only. -/
theorem spec_C1_kitchen_slip_creates_order :
    (processOrderRoute addDishSlipBody).orderLabel = OrderLabel.kitchenSlip ∧
    (processOrderRoute addDishSlipBody).kitchenProcessed = true ∧
    (processOrderRoute addDishSlipBody).orderInserted = true ∧
    processOrderToSupabaseRoute [] addDishSlipBody = WorkerBranch.kitchenSlip := by
  decide

/-- C2: the per-event counter mutation persists under storage key
`totalReceived`, but the constructor restores the counter from key
`totalOrdersReceived`; after one received event a restart restores `0`
instead of `1`. -/
theorem spec_C2_counter_key_mismatch :
    (eventCountStep ⟨0, []⟩).totalOrdersReceived = 1 ∧
    restoreTotal (eventCountStep ⟨0, []⟩).storage = 0 ∧
    "totalReceived".data ≠ "totalOrdersReceived".data := by
  decide

/-- C6 counterexample: on the specification's scenario body the dish
extractor returns the empty list, not the two claimed dishes — the body
contains neither the section header `菜品…数量…` nor the footer
`菜品价格合计`, so the section regular expression fails. -/
theorem spec_C6_counterexample :
    SSEListener.parseDishesFromText scenarioBody ≠
      [⟨"野菜卷".data, 1⟩, ⟨"木姜子牛肉".data, 2⟩] := by
  decide

/-- C6 amended: the scenario body is classified as a customer order with
table number `"8"`, and dish extraction on it yields the empty list. -/
theorem spec_C6_amended :
    (processOrderRoute scenarioBody).orderLabel = OrderLabel.customerOrder ∧
    (processOrderRoute scenarioBody).tableNo = "8".data ∧
    SSEListener.parseDishesFromText scenarioBody = [] := by
  decide

/-- C7 counterexample: the body line `1234份5` matches the strict dish
pattern (name `1`, price `23`, quantity `4`, unit `份`, subtotal `5`) and
the extractor emits the dish `{name: "1", quantity: 4}` whose name begins
with a digit — the strict branch has no leading-digit rejection. -/
theorem spec_C7_counterexample :
    SSEListener.parseDishesFromText digitNameBody = [⟨"1".data, 4⟩] ∧
    headIsDigit "1".data = true := by
  decide

/-- C8 counterexample: a body with eleven strict-pattern dish lines
yields eleven dish records — neither `parseDishesFromText`
implementation caps its output at 10. -/
theorem spec_C8_counterexample :
    ¬ (SSEListener.parseDishesFromText elevenDishBody).length ≤ 10 := by
  decide

/-- C9 counterexample: with the telemetry buffer at exactly the claimed
size threshold of 5 records (and no time elapsed), the flush condition
`getBufferSize() > 5 || timeSinceLastFlush > 30000` does not fire. -/
theorem spec_C9_counterexample : flushCondition 5 0 = false := by
  decide

/-- C9 amended: the buffer is flushed when it exceeds 5 records (6 or
more) or strictly more than 30 seconds elapsed since the last flush; a
failed flush leaves the buffered records in place and a successful flush
clears the buffer. -/
theorem spec_C9_amended :
    (∀ b t, flushCondition b t = true ↔ (6 ≤ b ∨ 30001 ≤ t)) ∧
    (∀ buffer : List Nat, flushBuffer true buffer false = buffer) ∧
    (∀ buffer : List Nat, flushBuffer true buffer true = []) := by
  refine ⟨?_, ?_, ?_⟩
  · intro b t
    simp only [flushCondition, Bool.or_eq_true, decide_eq_true_eq]
    omega
  · intro buffer
    cases buffer <;> simp [flushBuffer]
  · intro buffer
    cases buffer <;> simp [flushBuffer]

/-- C10: the Worker's `parseDishesFromText` and the Durable Object's
`SSEListener.parseDishesFromText` are extensionally equal — the two
source functions are textually identical, and their embeddings are the
same function. -/
theorem spec_C10_parsers_equal :
    ∀ text, SSEListener.parseDishesFromText text = Worker.parseDishesFromText text :=
  fun _ => rfl

/-- Once `activeConnection` is cleared the loop guard fails: no further
iterations and no further connection attempts, whatever the fuel. -/
theorem maintainFail_of_inactive (n : Nat) (st : ConnSt)
    (h : st.activeConnection = false) : maintainFail n st = (st, 0) := by
  cases n with
  | zero => rfl
  | succ n => simp [maintainFail, h]

/-- After `k` remaining failures from the state reached by `10 - k`
consecutive failures, the loop ends in the stopped state having made
exactly `k` more attempts, for any surplus fuel. -/
theorem maintainFail_countdown :
    ∀ k, 1 ≤ k → k ≤ 10 → ∀ m,
      maintainFail (m + k)
          { activeConnection := true, reconnectAttempts := 10 - k,
            storedActive := true, storedAttempts := 10 - k } =
        ({ activeConnection := false, reconnectAttempts := 10,
           storedActive := false, storedAttempts := 10 }, k) := by
  intro k
  induction k with
  | zero => omega
  | succ k ih =>
    intro _ hk m
    by_cases h1 : k = 0
    · subst h1
      have hstep : failStep
          { activeConnection := true, reconnectAttempts := 10 - 1,
            storedActive := true, storedAttempts := 10 - 1 } =
          { activeConnection := false, reconnectAttempts := 10,
            storedActive := false, storedAttempts := 10 } := by
        decide
      rw [Nat.add_succ]
      rw [show maintainFail (Nat.succ (m + 0))
            { activeConnection := true, reconnectAttempts := 10 - 1,
              storedActive := true, storedAttempts := 10 - 1 } =
          ((maintainFail (m + 0) (failStep
              { activeConnection := true, reconnectAttempts := 10 - 1,
                storedActive := true, storedAttempts := 10 - 1 })).1,
            (maintainFail (m + 0) (failStep
              { activeConnection := true, reconnectAttempts := 10 - 1,
                storedActive := true, storedAttempts := 10 - 1 })).2 + 1) from by
        simp [maintainFail]]
      rw [hstep, maintainFail_of_inactive _ _ rfl]
    · have hk1 : 1 ≤ k := Nat.one_le_iff_ne_zero.mpr h1
      have hk10 : k ≤ 10 := by omega
      have hstep : failStep
          { activeConnection := true, reconnectAttempts := 10 - (k + 1),
            storedActive := true, storedAttempts := 10 - (k + 1) } =
          { activeConnection := true, reconnectAttempts := 10 - k,
            storedActive := true, storedAttempts := 10 - k } := by
        simp only [failStep]
        rw [if_neg (by omega)]
        have e : 10 - (k + 1) + 1 = 10 - k := by omega
        rw [e]
      rw [Nat.add_succ]
      rw [show maintainFail (Nat.succ (m + k))
            { activeConnection := true, reconnectAttempts := 10 - (k + 1),
              storedActive := true, storedAttempts := 10 - (k + 1) } =
          ((maintainFail (m + k) (failStep
              { activeConnection := true, reconnectAttempts := 10 - (k + 1),
                storedActive := true, storedAttempts := 10 - (k + 1) })).1,
            (maintainFail (m + k) (failStep
              { activeConnection := true, reconnectAttempts := 10 - (k + 1),
                storedActive := true, storedAttempts := 10 - (k + 1) })).2 + 1) from by
        simp only [maintainFail]
        rw [if_pos (by simp; omega)]]
      rw [hstep, ih hk1 hk10 m]

/-- C3: starting from an explicit `start()` with the attempt counter at
zero, a run in which every connection attempt fails makes exactly 10
attempts — however much longer the loop could go on, there is no 11th —
and ends with `activeConnection = false`, persisted to durable storage as
`activeConnection = false`. -/
theorem spec_C3_stops_after_ten_failures (n : Nat) (h : 10 ≤ n) :
    (maintainFail n startState).1.activeConnection = false ∧
    (maintainFail n startState).1.storedActive = false ∧
    (maintainFail n startState).2 = 10 := by
  obtain ⟨m, rfl⟩ : ∃ m, n = m + 10 := ⟨n - 10, by omega⟩
  have h0 : startState =
      { activeConnection := true, reconnectAttempts := 10 - 10,
        storedActive := true, storedAttempts := 10 - 10 } := by decide
  rw [h0, maintainFail_countdown 10 (by omega) (by omega) m]
  exact ⟨rfl, rfl, rfl⟩

/-- C3 witness: with fuel for twelve loop iterations the run still makes
exactly ten attempts and stops inactive. -/
theorem spec_C3_witness :
    10 ≤ 12 ∧
    ((maintainFail 12 startState).1.activeConnection = false ∧
      (maintainFail 12 startState).1.storedActive = false ∧
      (maintainFail 12 startState).2 = 10) :=
  ⟨by decide, spec_C3_stops_after_ten_failures 12 (by decide)⟩

/-- C4: the reconnect delay is `min(5000 · 1.5^(attempts−1), 60000)`
milliseconds, monotonically non-decreasing in the consecutive-failure
count, capped at 60000 ms, equal to the 5000 ms base on the first
failure; a successful connection resets the attempt counter to zero and
persists it, so the delay after the next failure is again the base
5000 ms. -/
theorem spec_C4_backoff_properties :
    (∀ a, backoffDelay a ≤ backoffDelay (a + 1)) ∧
    (∀ a, backoffDelay a ≤ 60000) ∧
    backoffDelay 1 = 5000 ∧
    (∀ st : ConnSt, (connectStep st true).reconnectAttempts = 0 ∧
      (connectStep st true).storedAttempts = 0 ∧
      delayAfterFailure (connectStep st true) = 5000) := by
  refine ⟨?_, ?_, ?_, ?_⟩
  · intro a
    unfold backoffDelay
    have hpow : (3 / 2 : ℚ) ^ (a - 1) ≤ (3 / 2 : ℚ) ^ (a + 1 - 1) := by
      apply pow_le_pow_right₀ (by norm_num)
      omega
    exact min_le_min (by nlinarith) le_rfl
  · intro a
    exact min_le_right _ _
  · norm_num [backoffDelay]
  · intro st
    refine ⟨rfl, rfl, ?_⟩
    norm_num [delayAfterFailure, connectStep, backoffDelay]

/-- Every dish pushed while processing one line has a positive quantity:
the strict branch pushes only under the guard `quantity > 0` and the
fallback branch always pushes quantity 1. -/
theorem parseLine_quantity_pos (line : List Char) (d : Dish)
    (h : d ∈ parseLine line) : 1 ≤ d.quantity := by
  simp only [parseLine] at h
  split at h
  · simp at h
  · split at h
    · simp at h
    · split at h
      · next rawName q heq =>
        split at h
        · next hguard =>
          simp only [List.mem_singleton] at h
          subst h
          simp only [Bool.and_eq_true, decide_eq_true_eq] at hguard
          exact hguard.2
        · simp at h
      · split at h
        · next rawName heq =>
          split at h
          · simp only [List.mem_singleton] at h
            subst h
            exact le_refl 1
          · simp at h
        · simp at h

/-- C7 amended: every dish the customer-order extractor returns has a
positive integer quantity; the no-leading-digit guarantee holds only for
the fallback branch (a strict-pattern match can yield a name beginning
with a digit, see the counterexample). -/
theorem spec_C7_amended (text : List Char) (d : Dish)
    (h : d ∈ SSEListener.parseDishesFromText text) : 1 ≤ d.quantity := by
  unfold SSEListener.parseDishesFromText at h
  split at h
  · simp at h
  · split at h
    · simp at h
    · next sec heq =>
      rw [List.mem_flatMap] at h
      obtain ⟨line, _, hd⟩ := h
      exact parseLine_quantity_pos line d hd

/-- C7 witness: the extractor applied to a well-formed section contains
the dish `野菜卷`, and the amended theorem gives its quantity bound. -/
theorem spec_C7_witness :
    (⟨"野菜卷".data, 1⟩ : Dish) ∈ SSEListener.parseDishesFromText demoSectionBody ∧
    1 ≤ (⟨"野菜卷".data, 1⟩ : Dish).quantity :=
  ⟨by decide, spec_C7_amended demoSectionBody ⟨"野菜卷".data, 1⟩ (by decide)⟩

/-- The number of lines in the dish section located by the section
regular expression (0 when the section is absent). -/
def dishSectionLineCount (t : List Char) : Nat :=
  match findDishSection t with
  | none => 0
  | some sec => (jsSplitNL sec).length

/-- Each processed line contributes at most one dish record. -/
theorem parseLine_length_le_one (line : List Char) : (parseLine line).length ≤ 1 := by
  simp only [parseLine]
  split
  · exact Nat.zero_le 1
  · split
    · exact Nat.zero_le 1
    · split
      · split
        · exact le_refl 1
        · exact Nat.zero_le 1
      · split
        · split
          · exact le_refl 1
          · exact Nat.zero_le 1
        · exact Nat.zero_le 1

/-- Processing a list of lines yields at most one dish per line. -/
theorem flatMap_parseLine_length (ls : List (List Char)) :
    (ls.flatMap parseLine).length ≤ ls.length := by
  induction ls with
  | nil => simp
  | cons l t ih =>
    rw [List.flatMap_cons, List.length_append, List.length_cons]
    have := parseLine_length_le_one l
    omega

/-- Dropping a prefix satisfying `p` twice is the same as once. -/
theorem dropWhile_self (p : Char → Bool) (l : List Char) :
    (l.dropWhile p).dropWhile p = l.dropWhile p := by
  induction l with
  | nil => rfl
  | cons c t ih =>
    by_cases h : p c = true
    · simp [List.dropWhile_cons, h, ih]
    · simp [List.dropWhile_cons, h]

/-- The head surviving `dropWhile p` fails `p`. -/
theorem dropWhile_head_false (p : Char → Bool) :
    ∀ (l : List Char) c t, l.dropWhile p = c :: t → p c = false := by
  intro l
  induction l with
  | nil => intro c t h; simp [List.dropWhile] at h
  | cons x xs ih =>
    intro c t h
    by_cases hx : p x = true
    · rw [List.dropWhile_cons, if_pos hx] at h
      exact ih c t h
    · rw [List.dropWhile_cons, if_neg hx] at h
      cases h
      simpa using hx

/-- A final element failing `p` survives `dropWhile p`. -/
theorem dropWhile_append_last (p : Char → Bool) (c : Char) (hc : p c = false)
    (l : List Char) : ∃ s, (l ++ [c]).dropWhile p = s ++ [c] := by
  induction l with
  | nil => exact ⟨[], by simp [List.dropWhile_cons, hc]⟩
  | cons x t ih =>
    by_cases hx : p x = true
    · obtain ⟨s, hs⟩ := ih
      exact ⟨s, by simp [List.dropWhile_cons, hx, hs]⟩
    · exact ⟨x :: t, by simp [List.dropWhile_cons, hx]⟩

/-- A trimmed string has no leading whitespace left. -/
theorem jsTrim_dropWhile (l : List Char) :
    (jsTrim l).dropWhile isJsWs = jsTrim l := by
  unfold jsTrim
  cases hx : l.dropWhile isJsWs with
  | nil => simp
  | cons c t =>
    have hc : isJsWs c = false := dropWhile_head_false isJsWs l c t hx
    obtain ⟨s, hs⟩ := dropWhile_append_last isJsWs c hc t.reverse
    rw [List.reverse_cons, hs, List.reverse_append]
    simp [List.dropWhile_cons, hc]

/-- JavaScript `trim` is idempotent. -/
theorem jsTrim_idem (l : List Char) : jsTrim (jsTrim l) = jsTrim l := by
  have h1 : jsTrim (jsTrim l) =
      (((jsTrim l).dropWhile isJsWs).reverse.dropWhile isJsWs).reverse := rfl
  rw [h1, jsTrim_dropWhile]
  unfold jsTrim
  rw [List.reverse_reverse, dropWhile_self]

/-- Rewriting lemma: a newline at the head closes an empty line. -/
theorem splitLines_cons_nl (cs : List Char) :
    splitLines ('\n' :: cs) = ([] :: (splitLines cs).1, (splitLines cs).2) := by
  simp [splitLines]

/-- Rewriting lemma: a non-newline head with no complete line behind it
joins the remainder. -/
theorem splitLines_cons_of_nil (c : Char) (hc : ¬ c = '\n') (cs : List Char)
    (h : (splitLines cs).1 = []) :
    splitLines (c :: cs) = ([], c :: (splitLines cs).2) := by
  simp [splitLines, hc, h]

/-- Rewriting lemma: a non-newline head extends the first complete line. -/
theorem splitLines_cons_of_cons (c : Char) (hc : ¬ c = '\n') (cs l : List Char)
    (ls : List (List Char)) (h : (splitLines cs).1 = l :: ls) :
    splitLines (c :: cs) = ((c :: l) :: ls, (splitLines cs).2) := by
  simp [splitLines, hc, h]

/-- Splitting a concatenation: the complete lines of `a ++ b` are the
complete lines of `a` followed by those of the carry-over of `a`
prepended to `b`, and likewise for the remainder — the identity behind
chunking-invariance of the framer. -/
theorem splitLines_append (a b : List Char) :
    splitLines (a ++ b) =
      ((splitLines a).1 ++ (splitLines ((splitLines a).2 ++ b)).1,
        (splitLines ((splitLines a).2 ++ b)).2) := by
  induction a with
  | nil => simp [splitLines]
  | cons c a ih =>
    by_cases hc : c = '\n'
    · subst hc
      rw [List.cons_append, splitLines_cons_nl, splitLines_cons_nl, ih]
      simp
    · cases hA : (splitLines a).1 with
      | nil =>
        rw [splitLines_cons_of_nil c hc a hA, List.cons_append, List.cons_append]
        cases hX : (splitLines ((splitLines a).2 ++ b)).1 with
        | nil =>
          rw [splitLines_cons_of_nil c hc (a ++ b) (by rw [ih, hA, hX]; rfl),
            splitLines_cons_of_nil c hc ((splitLines a).2 ++ b) hX, ih]
          simp
        | cons l ls =>
          rw [splitLines_cons_of_cons c hc (a ++ b) l ls (by rw [ih, hA, hX]; rfl),
            splitLines_cons_of_cons c hc ((splitLines a).2 ++ b) l ls hX, ih]
          simp
      | cons l ls =>
        rw [splitLines_cons_of_cons c hc a l ls hA, List.cons_append]
        rw [splitLines_cons_of_cons c hc (a ++ b) l
            (ls ++ (splitLines ((splitLines a).2 ++ b)).1) (by rw [ih, hA]; rfl), ih]
        simp

/-- Unfolding of one framer iteration. -/
theorem framerRun_cons (buf ch : List Char) (chs : List (List Char)) :
    framerRun buf (ch :: chs) =
      ((((splitLines (buf ++ ch)).1.map jsTrim).filter (fun l => !l.isEmpty)) ++
          (framerRun (splitLines (buf ++ ch)).2 chs).1,
        (framerRun (splitLines (buf ++ ch)).2 chs).2) := by
  simp [framerRun]

/-- Master lemma: a nonempty chunk sequence produces exactly the trimmed
nonempty complete lines of the concatenated input (prefixed by the carry
buffer), with the final incomplete line as the remaining buffer —
independently of the chunk boundaries. -/
theorem framerRun_join (chs : List (List Char)) :
    ∀ (buf ch : List Char),
      framerRun buf (ch :: chs) =
        (((splitLines (buf ++ (ch :: chs).flatten)).1.map jsTrim).filter
            (fun l => !l.isEmpty),
          (splitLines (buf ++ (ch :: chs).flatten)).2) := by
  induction chs with
  | nil =>
    intro buf ch
    rw [framerRun_cons]
    simp [framerRun]
  | cons ch2 chs ih =>
    intro buf ch
    rw [framerRun_cons, ih (splitLines (buf ++ ch)).2 ch2]
    have hfl : buf ++ (ch :: ch2 :: chs).flatten =
        (buf ++ ch) ++ (ch2 :: chs).flatten := by
      simp [List.flatten_cons, List.append_assoc]
    rw [hfl, splitLines_append (buf ++ ch) ((ch2 :: chs).flatten)]
    simp [List.filter_append]

/-- C5: (1) for any two nonempty chunkings of the same newline-delimited
input the framer emits the same record sequence — a record split across
chunk boundaries is carried over, never dropped — and (2) every emitted
record is nonempty even after trimming, so empty or whitespace-only
records are never emitted. -/
theorem spec_C5_framer_chunking :
    (∀ cs1 cs2 : List (List Char), cs1 ≠ [] → cs2 ≠ [] →
      cs1.flatten = cs2.flatten → (framerRun [] cs1).1 = (framerRun [] cs2).1) ∧
    (∀ (cs : List (List Char)) (r : List Char),
      r ∈ (framerRun [] cs).1 → (jsTrim r).isEmpty = false) := by
  constructor
  · intro cs1 cs2 h1 h2 hj
    obtain ⟨c1, t1, rfl⟩ := List.exists_cons_of_ne_nil h1
    obtain ⟨c2, t2, rfl⟩ := List.exists_cons_of_ne_nil h2
    rw [framerRun_join t1 [] c1, framerRun_join t2 [] c2, hj]
  · intro cs r hr
    cases cs with
    | nil => simp [framerRun] at hr
    | cons ch chs =>
      rw [framerRun_join chs [] ch] at hr
      simp only [List.mem_filter, List.mem_map] at hr
      obtain ⟨⟨l, _, rfl⟩, hne⟩ := hr
      rw [jsTrim_idem]
      simpa using hne

/-- C5 witness: the record `ab` split across two chunks is emitted
exactly as from the unsplit input, and a concrete emitted record is
nonempty after trimming. -/
theorem spec_C5_witness :
    (framerRun [] [['a'], ['b', '\n']]).1 = (framerRun [] [['a', 'b', '\n']]).1 ∧
    (jsTrim ['a', 'b']).isEmpty = false :=
  ⟨spec_C5_framer_chunking.1 [['a'], ['b', '\n']] [['a', 'b', '\n']]
      (by decide) (by decide) (by decide),
    spec_C5_framer_chunking.2 [['a', 'b', '\n']] ['a', 'b'] (by decide)⟩

/-- C8 amended: the customer-order extractor has no fixed cap of 10; it
emits at most one dish record per line of the located dish section (and
nothing when the section is absent), so its output is bounded by the
section's line count, not by 10. -/
theorem spec_C8_amended (text : List Char) :
    (SSEListener.parseDishesFromText text).length ≤ dishSectionLineCount text := by
  unfold SSEListener.parseDishesFromText dishSectionLineCount
  split
  · simp
  · split
    · simp
    · exact flatMap_parseLine_length _
